import Mathlib

/-!
# Verification of the ReactBoundary analyzer

A shallow embedding of the Rust sources of the ReactBoundary repository
(`src/lib.rs`, `src/component.rs`, `src/jsx.rs`, `src/range.rs`) together
with theorems settling the specification claims about it.

The external parser (oxc) is out of scope of the repository; following the
spec's interface contract, a parse result (typed syntax tree, panic flag,
diagnostics) is consumed as input.  Source text is modelled as the list of
Unicode scalar values (`List Char`), byte offsets as `Nat`.
-/

namespace ReactBoundary

/-- `oxc::span::Span`: a byte range into the source text.  The Rust field
`end` is called `stop` here (`end` is a Lean keyword). -/
structure Span where
  start : Nat
  stop : Nat
deriving Repr, DecidableEq

/-- `types::Position` from the wit bindings: zero-based line and
zero-based column counted in Unicode scalar values. -/
structure Position where
  line : Nat
  character : Nat
deriving Repr, DecidableEq

/-- `types::Range`: a pair of positions.  The Rust field `end` is called
`stop` here. -/
structure Range where
  start : Position
  stop : Position
deriving Repr, DecidableEq

/-- Number of bytes of the UTF-8 encoding of a scalar value; this is the
step that Rust's `char_indices` adds to the byte index at each character. -/
def utf8Len (c : Char) : Nat :=
  if c.toNat < 0x80 then 1
  else if c.toNat < 0x800 then 2
  else if c.toNat < 0x10000 then 3
  else 4

/-- Loop of `range.rs::offset_to_position`: walk `char_indices`, break as
soon as the byte index reaches `offset`, count newlines into `line` and
other characters into `character`. -/
def offsetToPositionAux : List Char → Nat → Nat → Nat → Nat → Position
  | [], _, _, line, character => ⟨line, character⟩
  | c :: rest, i, offset, line, character =>
    if i ≥ offset then ⟨line, character⟩
    else if c = '\n' then offsetToPositionAux rest (i + utf8Len c) offset (line + 1) 0
    else offsetToPositionAux rest (i + utf8Len c) offset line (character + 1)

/-- `range.rs::offset_to_position`. -/
def offset_to_position (source : List Char) (offset : Nat) : Position :=
  offsetToPositionAux source 0 offset 0 0

/-- `range.rs::span_to_range`. -/
def span_to_range (source : List Char) (span : Span) : Range :=
  { start := offset_to_position source span.start
    stop := offset_to_position source span.stop }

/-- `range.rs::string_literal_to_range`: shift one byte inward on both
sides (skipping the delimiting quote bytes) before mapping. -/
def string_literal_to_range (source : List Char) (span : Span) : Range :=
  { start := offset_to_position source (span.start + 1)
    stop := offset_to_position source (span.stop - 1) }

/-- The character starting at byte offset `off` in the source, if any
character starts exactly there (mirrors walking `char_indices`). -/
def charAtByteAux : List Char → Nat → Nat → Option Char
  | [], _, _ => none
  | c :: rest, i, off =>
    if i = off then some c
    else if i > off then none
    else charAtByteAux rest (i + utf8Len c) off

/-- The character starting at byte offset `off` of the source text. -/
def charAtByte (source : List Char) (off : Nat) : Option Char :=
  charAtByteAux source 0 off

/-- Strict order on positions in document order. -/
def posLt (a b : Position) : Prop :=
  a.line < b.line ∨ (a.line = b.line ∧ a.character < b.character)

instance (a b : Position) : Decidable (posLt a b) := by
  unfold posLt; infer_instance

/-- A string-literal delimiter byte: `"`, `'` or the backquote (all
single-byte characters, written by code point). -/
def isQuoteChar (c : Char) : Prop :=
  c = Char.ofNat 34 ∨ c = Char.ofNat 39 ∨ c = Char.ofNat 96

instance (c : Char) : Decidable (isQuoteChar c) := by
  unfold isQuoteChar; infer_instance

/-! ## The consumed syntax tree

Embedding of the oxc AST fragments that the analyzer matches on.  Node
kinds the analyzer never inspects are collapsed into `other…`
constructors; payload fields the analyzer never reads (attributes,
modifiers, property values, …) are omitted.  The tree is an input
produced by the external parser collaborator. -/

/-- `oxc` `ImportOrExportKind`. -/
inductive ImportKind where
  | value
  | typeOnly
deriving Repr, DecidableEq

/-- `oxc` `ImportDeclarationSpecifier`; each variant carries the locally
bound name (`spec.local.name`), and a named import specifier also carries
its own `import_kind`. -/
inductive ImportSpecifier where
  | importSpecifier (importKind : ImportKind) (localName : String)
  | importDefaultSpecifier (localName : String)
  | importNamespaceSpecifier (localName : String)
deriving Repr, DecidableEq

/-- `oxc` `ModuleExportName` (the `exported` field of an export
specifier). -/
inductive ModuleExportName where
  | identifierName (name : String)
  | identifierReference (name : String)
  | stringLiteral (value : String)
deriving Repr, DecidableEq

/-- `oxc` `TSTypeName`. -/
inductive TSTypeName where
  | identifierReference (name : String)
  | qualifiedName
deriving Repr, DecidableEq

/-- `oxc` `TSType`; only the type-reference variant is inspected. -/
inductive TSType where
  | tsTypeReference (typeName : TSTypeName)
  | otherType
deriving Repr, DecidableEq

/-- A `BindingIdentifier`: name and identifier span. -/
structure BindingIdent where
  name : String
  span : Span
deriving Repr, DecidableEq

/-- `oxc` `BindingPatternKind`. -/
inductive BindingPatternKind where
  | bindingIdentifier (ident : BindingIdent)
  | otherPattern
deriving Repr, DecidableEq

/-- `oxc` `BindingPattern`: kind plus optional type annotation (the
`TSTypeAnnotation` wrapper is collapsed to its inner `TSType`). -/
structure BindingPattern where
  kind : BindingPatternKind
  typeAnn : Option TSType
deriving Repr, DecidableEq

/-- `oxc` `PropertyKey`; only static identifier keys are inspected. -/
inductive PropertyKey where
  | staticIdentifier (name : String)
  | otherKey
deriving Repr, DecidableEq

/-- `oxc` `ObjectPropertyKind`; the analyzer reads only the key of an
`ObjectProperty`. -/
inductive ObjectPropertyKind where
  | objectProperty (key : PropertyKey)
  | otherPropertyKind
deriving Repr, DecidableEq

/-- Object part of an `oxc` `JSXMemberExpression`: only an identifier
reference base is inspected. -/
inductive JSXMemberObject where
  | identifierReference (name : String)
  | otherObject
deriving Repr, DecidableEq

/-- `oxc` `JSXElementName`. -/
inductive JSXElementName where
  | identifier (name : String)
  | identifierReference (name : String)
  | memberExpression (object : JSXMemberObject) (property : String)
  | namespacedName
  | thisExpression
deriving Repr, DecidableEq

mutual
/-- An `oxc` `JSXElement`: opening-element name, children, and the span
of the whole element. -/
inductive JSXElement where
  | mk (name : JSXElementName) (children : List JSXChild) (span : Span)
deriving Repr

/-- An `oxc` `JSXFragment`: children and span. -/
inductive JSXFragment where
  | mk (children : List JSXChild) (span : Span)
deriving Repr

/-- `oxc` `JSXChild`; text, expression containers and spread children are
never inspected and are collapsed into `otherChild`. -/
inductive JSXChild where
  | element (elem : JSXElement)
  | fragment (frag : JSXFragment)
  | otherChild
deriving Repr
end

mutual
/-- `oxc` `Expression`, restricted to the variants the analyzer matches
on. -/
inductive Expression where
  | jsxElement (elem : JSXElement)
  | jsxFragment (frag : JSXFragment)
  | callExpression (callee : Expression) (arguments : List Argument)
  | identifier (name : String)
  | staticMemberExpression (object : Expression) (property : String)
  | computedMemberExpression (object : Expression) (key : Expression)
  | sequenceExpression (expressions : List Expression)
  | parenthesizedExpression (expression : Expression)
  | arrowFunctionExpression (isExpressionBody : Bool) (body : List Statement)
  | functionExpression (body : Option (List Statement))
  | objectExpression (properties : List ObjectPropertyKind)
  | stringLiteralExpr (value : String)
  | otherExpression
deriving Repr

/-- An `oxc` call `Argument`: a spread element or an expression
(`as_expression` yields the latter). -/
inductive Argument where
  | spreadElement
  | expression (expr : Expression)
deriving Repr

/-- A `VariableDeclarator`: binding pattern and optional initializer. -/
inductive Declarator where
  | mk (id : BindingPattern) (init : Option Expression)
deriving Repr

/-- An `oxc` `Function` as used for function declarations: optional
binding identifier, optional return type (the `TSTypeAnnotation` wrapper
collapsed to its `TSType`), optional body (statement list). -/
inductive FunctionDecl where
  | mk (id : Option BindingIdent) (returnType : Option TSType)
      (body : Option (List Statement))
deriving Repr

/-- `oxc` `Declaration` (inside `export`): only variable and function
declarations are inspected. -/
inductive Declaration where
  | variableDeclaration (declarations : List Declarator)
  | functionDeclaration (fn : FunctionDecl)
  | otherDeclaration
deriving Repr

/-- `oxc` `ExportDefaultDeclarationKind`: an expression variant
(`as_expression` succeeds; the `Identifier` arm of `lib.rs` is
`expression (.identifier name)`), an inline function declaration, or
another declaration kind. -/
inductive ExportDefaultKind where
  | expression (expr : Expression)
  | functionDeclaration (fn : FunctionDecl)
  | otherKind
deriving Repr

/-- `oxc` `Statement`, restricted to the variants the analyzer matches
on.  An import declaration carries its `import_kind`, its optional
specifier list, and the module specifier string literal (value and
span, the span including the quotes). -/
inductive Statement where
  | importDeclaration (importKind : ImportKind)
      (specifiers : Option (List ImportSpecifier))
      (sourceValue : String) (sourceSpan : Span)
  | variableDeclaration (declarations : List Declarator)
  | functionDeclarationStmt (fn : FunctionDecl)
  | exportNamedDeclaration (declaration : Option Declaration)
      (specifiers : List ModuleExportName)
  | exportDefaultDeclaration (declaration : ExportDefaultKind)
  | expressionStatement (expression : Expression)
  | returnStatement (argument : Option Expression)
  | blockStatement (body : List Statement)
  | ifStatement (consequent : Statement) (alternate : Option Statement)
  | otherStatement
deriving Repr
end

/-- A parsed `Program`: leading directive strings and the statement
body. -/
structure Program where
  directives : List String
  body : List Statement
deriving Repr

/-- A parser diagnostic: its message, and the host rendering of the
diagnostic against the source (`with_source_code`, produced by the
external diagnostic library). -/
structure Diagnostic where
  message : String
  rendered : String
deriving Repr, DecidableEq

/-- The parser collaborator's return value: panic flag, diagnostics, and
the (possibly partial) program. -/
structure ParseReturn where
  panicked : Bool
  errors : List Diagnostic
  program : Program
deriving Repr

/-! ## `component.rs`: the component classifier -/

/-- First character uppercase, as in
`name.chars().next().is_some_and(|c| c.is_uppercase())` (restricted to
the ASCII uppercase range of `Char.isUpper`; every name in the corpus is
ASCII). -/
def firstCharUppercase (name : String) : Bool :=
  match name.data with
  | [] => false
  | c :: _ => c.isUpper

/-- `component.rs::is_react_type_annotation` (the name is shortened; it
checks a type reference against the fixed set of React component type
names). -/
def is_react_type_ann : TSType → Bool
  | .tsTypeReference (.identifierReference name) =>
    name == "FC" || name == "FunctionComponent" || name == "VFC" ||
    name == "ReactElement" || name == "ReactNode" || name == "Component"
  | _ => false

/-- `component.rs::has_react_type`. -/
def has_react_type (binding : BindingPattern) : Bool :=
  match binding.typeAnn with
  | some t => is_react_type_ann t
  | none => false

/-- Property names of the jsx runtime accepted on a member access at the
end of a compiled `(0, …)` sequence callee. -/
def isJsxRuntimePropName (name : String) : Bool :=
  name == "jsx" || name == "jsxs" || name == "jsxDEV" || name == "Fragment"

/-- `component.rs::is_jsx_runtime_call`: a call whose callee is an
identifier in the runtime-identifier set, or (after unwrapping one
parenthesized callee) a sequence expression whose last element is such an
identifier, a static member access with a jsx runtime property name, or a
computed member access whose string-literal key is such a name. -/
def is_jsx_runtime_call (jsx_runtime_identifiers : List String) :
    Expression → Bool
  | .callExpression callee _ =>
    match callee with
    | .identifier name => jsx_runtime_identifiers.contains name
    | _ =>
      let actual_callee :=
        match callee with
        | .parenthesizedExpression inner => inner
        | c => c
      match actual_callee with
      | .sequenceExpression exprs =>
        match exprs.getLast? with
        | some (.identifier name) => jsx_runtime_identifiers.contains name
        | some (.staticMemberExpression _ prop) => isJsxRuntimePropName prop
        | some (.computedMemberExpression _ (.stringLiteralExpr v)) =>
          isJsxRuntimePropName v
        | _ => false
      | _ => false
  | _ => false

/-- `component.rs::has_jsx_return`: some statement is a `return` whose
argument is a JSX element/fragment or a jsx runtime call. -/
def has_jsx_return (jsx_runtime_identifiers : List String)
    (statements : List Statement) : Bool :=
  statements.any fun stmt =>
    match stmt with
    | .returnStatement (some arg) =>
      (match arg with
       | .jsxElement _ => true
       | .jsxFragment _ => true
       | _ => false) || is_jsx_runtime_call jsx_runtime_identifiers arg
    | _ => false

/-- `component.rs::is_react_hoc`, phrased on the call's callee:
`React.forwardRef` / `React.memo` as a static member access on the
identifier `React`, or a direct `forwardRef` / `memo` identifier. -/
def is_react_hoc : Expression → Bool
  | .staticMemberExpression object prop =>
    match object with
    | .identifier objName =>
      objName == "React" && (prop == "forwardRef" || prop == "memo")
    | _ => false
  | .identifier name => name == "forwardRef" || name == "memo"
  | _ => false

/-- `component.rs::contains_jsx`: JSX literal, jsx runtime call,
HOC call recursing into its first argument, or a function/arrow whose
body returns JSX or a runtime call. -/
def contains_jsx (jsx_runtime_identifiers : List String) :
    Expression → Bool
  | .jsxElement _ => true
  | .jsxFragment _ => true
  | .callExpression callee args =>
    if is_jsx_runtime_call jsx_runtime_identifiers
        (.callExpression callee args) then true
    else if is_react_hoc callee then
      -- call_expr.arguments.first() followed by as_expression()
      match args with
      | .expression arg_expr :: _ =>
        contains_jsx jsx_runtime_identifiers arg_expr
      | _ => false
    else false
  | .arrowFunctionExpression isExpressionBody body =>
    if isExpressionBody then
      -- implicit return: the body holds a single expression statement
      body.any fun stmt =>
        match stmt with
        | .expressionStatement e =>
          (match e with
           | .jsxElement _ => true
           | .jsxFragment _ => true
           | _ => false) || is_jsx_runtime_call jsx_runtime_identifiers e
        | _ => false
    else has_jsx_return jsx_runtime_identifiers body
  | .functionExpression body? =>
    match body? with
    | some body => has_jsx_return jsx_runtime_identifiers body
    | none => false
  | e => is_jsx_runtime_call jsx_runtime_identifiers e

/-- `component.rs::is_react_component`. -/
def is_react_component (name : String) (binding : BindingPattern)
    (init : Option Expression) (jsx_runtime_identifiers : List String) :
    Bool :=
  if !firstCharUppercase name then false
  else if has_react_type binding then true
  else
    match init with
    | some init_expr => contains_jsx jsx_runtime_identifiers init_expr
    | none => false

/-- `component.rs::is_react_function_component`. -/
def is_react_function_component (name : String)
    (returnType : Option TSType) (body : Option (List Statement))
    (jsx_runtime_identifiers : List String) : Bool :=
  if !firstCharUppercase name then false
  else if (match returnType with
           | some t => is_react_type_ann t
           | none => false) then true
  else
    match body with
    | some func_body => has_jsx_return jsx_runtime_identifiers func_body
    | none => false

/-- Modelled from the spec: `component::analyze_function_declaration` is
called from the export-resolution pass of `src/lib.rs`, but its
definition is not part of the provided sources.  Per spec §4.4 forms 2–3,
an exported (inline) function declaration is classified via the §4.2
function rules (`is_react_function_component`); when it qualifies, its
name and identifier span are produced. -/
def analyze_function_declaration (fn : FunctionDecl)
    (jsx_runtime_identifiers : List String) : Option (String × Span) :=
  match fn with
  | .mk (some ident) returnType body =>
    if is_react_function_component ident.name returnType body
        jsx_runtime_identifiers then
      some (ident.name, ident.span)
    else none
  | .mk none _ _ => none

/-! ## `jsx.rs`: the markup-usage collector

The Rust functions push into a mutable `usages` vector; the embedding
returns the pushed entries in order, appending sub-results in the order
of the source's pushes and recursive calls. -/

mutual
/-- `jsx.rs::collect_jsx_from_statement`. -/
def collect_jsx_from_statement : Statement → List (String × Span)
  | .returnStatement (some arg) => collect_jsx_from_expression arg
  | .returnStatement none => []
  | .expressionStatement e => collect_jsx_from_expression e
  | .variableDeclaration decls => collect_jsx_from_declarators decls
  | .exportNamedDeclaration (some decl) _ =>
    match decl with
    | .variableDeclaration decls => collect_jsx_from_declarators decls
    | .functionDeclaration (.mk _ _ (some body)) =>
      collect_jsx_from_statements body
    | _ => []
  | .exportNamedDeclaration none _ => []
  | .exportDefaultDeclaration d =>
    match d with
    | .expression e => collect_jsx_from_expression e
    | .functionDeclaration (.mk _ _ (some body)) =>
      collect_jsx_from_statements body
    | _ => []
  | .blockStatement body => collect_jsx_from_statements body
  | .ifStatement consequent alternate =>
    collect_jsx_from_statement consequent ++
      (match alternate with
       | some alt => collect_jsx_from_statement alt
       | none => [])
  | _ => []

/-- Iteration of `collect_jsx_from_statement` over a statement list (the
loop bodies of `collect_jsx_usages` and of the block/function cases). -/
def collect_jsx_from_statements : List Statement → List (String × Span)
  | [] => []
  | stmt :: rest =>
    collect_jsx_from_statement stmt ++ collect_jsx_from_statements rest

/-- Loop over variable declarators: recurse into each initializer. -/
def collect_jsx_from_declarators : List Declarator → List (String × Span)
  | [] => []
  | .mk _ (some init) :: rest =>
    collect_jsx_from_expression init ++ collect_jsx_from_declarators rest
  | .mk _ none :: rest => collect_jsx_from_declarators rest

/-- `jsx.rs::collect_jsx_from_expression`. -/
def collect_jsx_from_expression : Expression → List (String × Span)
  | .jsxElement elem => collect_jsx_from_element elem
  | .jsxFragment (.mk children _) => collect_jsx_children children
  | .parenthesizedExpression inner => collect_jsx_from_expression inner
  | .arrowFunctionExpression _ body => collect_jsx_from_statements body
  | .functionExpression (some body) => collect_jsx_from_statements body
  | _ => []

/-- `jsx.rs::collect_jsx_from_element`: record the element's own usage
(PascalCase identifier tag, or PascalCase identifier-reference base of a
member-expression tag, under the span of the whole element), then visit
the children. -/
def collect_jsx_from_element : JSXElement → List (String × Span)
  | .mk name children span =>
    (match name with
     | .identifier n =>
       if firstCharUppercase n then [(n, span)] else []
     | .identifierReference n =>
       if firstCharUppercase n then [(n, span)] else []
     | .memberExpression (.identifierReference base) _ =>
       if firstCharUppercase base then [(base, span)] else []
     | _ => []) ++ collect_jsx_children children

/-- The children loop shared by the element and fragment cases: only
children that are themselves elements are visited
(`if let JSXChild::Element`). -/
def collect_jsx_children : List JSXChild → List (String × Span)
  | [] => []
  | .element elem :: rest =>
    collect_jsx_from_element elem ++ collect_jsx_children rest
  | _ :: rest => collect_jsx_children rest
end

/-- `jsx.rs::collect_jsx_usages`. -/
def collect_jsx_usages (statements : List Statement) :
    List (String × Span) :=
  collect_jsx_from_statements statements

/-! ## `lib.rs`: the orchestrator -/

/-- `types::ImportAnalysis`. -/
structure ImportAnalysis where
  identifier : List String
  source : String
  source_span : Range
deriving Repr, DecidableEq

/-- `types::ComponentAnalysis`. -/
structure ComponentAnalysis where
  name : String
  is_client_component : Bool
  range : Range
deriving Repr, DecidableEq

/-- `types::JsxUsage`. -/
structure JsxUsage where
  component_name : String
  range : Range
deriving Repr, DecidableEq

/-- `AnalysisResult` from the wit bindings. -/
structure AnalysisResult where
  imports : List ImportAnalysis
  components : List ComponentAnalysis
  jsx_usages : List JsxUsage
deriving Repr, DecidableEq

/-- The directive scan: some leading directive equals `"use client"`
exactly. -/
def hasUseClientDirective (program : Program) : Bool :=
  program.directives.any fun directive => directive == "use client"

/-- The surviving locally bound names of one import statement
(`filter_map` over the specifiers, dropping type-only named
specifiers; an absent specifier list yields no names). -/
def importStatementIdentifiers
    (specifiers : Option (List ImportSpecifier)) : List String :=
  match specifiers with
  | none => []
  | some specs =>
    specs.filterMap fun spec =>
      match spec with
      | .importSpecifier kind localName =>
        if kind = .typeOnly then none else some localName
      | .importDefaultSpecifier localName => some localName
      | .importNamespaceSpecifier localName => some localName

/-- The import collection pass of `analyze` (`lib.rs` lines 56–99): one
`ImportAnalysis` per non-type-only import statement. -/
def collectImports (source_text : List Char) (body : List Statement) :
    List ImportAnalysis :=
  body.filterMap fun statement =>
    match statement with
    | .importDeclaration importKind specifiers sourceValue sourceSpan =>
      if importKind = .typeOnly then none
      else
        some { identifier := importStatementIdentifiers specifiers
               source := sourceValue
               source_span :=
                 string_literal_to_range source_text sourceSpan }
    | _ => none

/-- The jsx runtime identifier set: all identifiers of imports whose
source is `"react/jsx-runtime"`. -/
def jsxRuntimeIdentifiers (imports : List ImportAnalysis) : List String :=
  (imports.filter fun imp => imp.source == "react/jsx-runtime").flatMap
    fun imp => imp.identifier

/-- The declaration map `component_declarations : HashMap<String, Span>`,
represented as an association list where an insert conses and a lookup
takes the most recent entry (`HashMap::insert` overwrites). -/
def DeclMap := List (String × Span)

/-- `HashMap::get`. -/
def declMapGet (m : DeclMap) (name : String) : Option Span :=
  match m.find? fun p => p.1 == name with
  | some p => some p.2
  | none => none

/-- `HashMap::insert` (the freshest binding shadows older ones). -/
def declMapInsert (m : DeclMap) (name : String) (span : Span) : DeclMap :=
  (name, span) :: m

/-- First pass of `analyze` (`lib.rs` lines 112–151): classify plain
top-level variable and function declarations and record the component
ones in the declaration map. -/
def firstPass (jsx_runtime_identifiers : List String)
    (body : List Statement) : DeclMap :=
  body.foldl
    (fun m statement =>
      match statement with
      | .variableDeclaration declarations =>
        declarations.foldl
          (fun m declarator =>
            match declarator with
            | .mk id init =>
              match id.kind with
              | .bindingIdentifier ident =>
                if is_react_component ident.name id init
                    jsx_runtime_identifiers then
                  declMapInsert m ident.name ident.span
                else m
              | .otherPattern => m)
          m
      | .functionDeclarationStmt (.mk (some ident) returnType fbody) =>
        if is_react_function_component ident.name returnType fbody
            jsx_runtime_identifiers then
          declMapInsert m ident.name ident.span
        else m
      | _ => m)
    []

/-- The exports contributed by one statement in the `__export()` scan of
`analyze` (`lib.rs` lines 167–192): an expression statement calling the
identifier `__export` with at least two arguments whose second argument
is an object literal contributes every static-identifier property key
present in the declaration map. -/
def exportCallContribution (component_declarations : DeclMap) :
    Statement → List (String × Span)
  | .expressionStatement (.callExpression (.identifier calleeName) args) =>
    if calleeName == "__export" && decide (args.length ≥ 2) then
      match args.get? 1 with
      | some (.expression (.objectExpression properties)) =>
        properties.filterMap fun property =>
          match property with
          | .objectProperty (.staticIdentifier key) =>
            match declMapGet component_declarations key with
            | some span => some (key, span)
            | none => none
          | _ => none
      | _ => []
    else []
  | _ => []

/-- The `__export()` scan over the whole statement list; the declaration
map is not modified during this pass. -/
def exportCallPass (component_declarations : DeclMap)
    (body : List Statement) : List (String × Span) :=
  body.flatMap (exportCallContribution component_declarations)

/-- State of the export-statement pass: the exported components collected
so far and the declaration map (which this pass also extends). -/
structure ExportState where
  exported : List (String × Span)
  decls : DeclMap

/-- `lib.rs::register_component`: push the export and (re-)insert the
declaration. -/
def register_component (name : String) (span : Span)
    (st : ExportState) : ExportState :=
  { exported := st.exported ++ [(name, span)]
    decls := declMapInsert st.decls name span }

/-- Push an export found by a map lookup (no map insertion). -/
def pushExport (name : String) (span : Span) (st : ExportState) :
    ExportState :=
  { st with exported := st.exported ++ [(name, span)] }

/-- Loop body of the named-export variable-declaration case (`lib.rs`
lines 227–248): classify each declarator inline and register it when it
qualifies. -/
def exportVarDeclaratorStep (jsx_runtime_identifiers : List String)
    (st : ExportState) : Declarator → ExportState
  | .mk id init =>
    match id.kind with
    | .bindingIdentifier ident =>
      if is_react_component ident.name id init jsx_runtime_identifiers then
        register_component ident.name ident.span st
      else st
    | .otherPattern => st

/-- Loop body of the bare re-export specifier case (`lib.rs` lines
268–281): look the exported name up in the declaration map. -/
def exportSpecifierStep (st : ExportState) (specifier : ModuleExportName) :
    ExportState :=
  let exported_name :=
    match specifier with
    | .identifierName n => n
    | .identifierReference n => n
    | .stringLiteral v => v
  match declMapGet st.decls exported_name with
  | some span => pushExport exported_name span st
  | none => st

/-- One step of the export-statement pass of `analyze` (`lib.rs` lines
194–286). -/
def exportStmtStep (jsx_runtime_identifiers : List String)
    (st : ExportState) : Statement → ExportState
  | .exportDefaultDeclaration d =>
    match d with
    | .expression (.identifier name) =>
      match declMapGet st.decls name with
      | some span => pushExport name span st
      | none => st
    | .functionDeclaration fn =>
      match analyze_function_declaration fn jsx_runtime_identifiers with
      | some (name, span) => register_component name span st
      | none => st
    | _ => st
  | .exportNamedDeclaration (some declaration) _ =>
    match declaration with
    | .variableDeclaration declarations =>
      declarations.foldl (exportVarDeclaratorStep jsx_runtime_identifiers) st
    | .functionDeclaration fn =>
      match analyze_function_declaration fn jsx_runtime_identifiers with
      | some (name, span) => register_component name span st
      | none => st
    | .otherDeclaration => st
  | .exportNamedDeclaration none specifiers =>
    specifiers.foldl exportSpecifierStep st
  | _ => st

/-- The successful-analysis pipeline of `analyze` (`lib.rs` lines 49–335,
after the error checks): directive scan, import collection, declaration
classification, `__export()` scan, export-statement pass, usage
collection and filtering, result assembly. -/
def buildResult (source_text : List Char) (program : Program) :
    AnalysisResult :=
  let has_use_client_directive := hasUseClientDirective program
  let imports := collectImports source_text program.body
  let jsx_runtime_identifiers := jsxRuntimeIdentifiers imports
  let component_declarations := firstPass jsx_runtime_identifiers
    program.body
  let exportedFromCalls := exportCallPass component_declarations
    program.body
  let finalState := program.body.foldl
    (exportStmtStep jsx_runtime_identifiers)
    { exported := exportedFromCalls, decls := component_declarations }
  let components := finalState.exported.map fun p =>
    { name := p.1
      is_client_component := has_use_client_directive
      range := span_to_range source_text p.2 }
  let imported_identifiers := imports.flatMap fun imp => imp.identifier
  let jsx_usages_raw := collect_jsx_usages program.body
  let jsx_usages :=
    (jsx_usages_raw.filter fun p => imported_identifiers.contains p.1).map
      fun p =>
        { component_name := p.1
          range := span_to_range source_text p.2 }
  { imports := imports, components := components
    jsx_usages := jsx_usages }

/-- The parse-error string: the first diagnostic's message together with
its source-annotated rendering
(`format!("Error: \x7b\x7d with code \x7b\x7d", …)`). -/
def parseErrorString (d : Diagnostic) : String :=
  "Error: " ++ d.message ++ " with code " ++ d.rendered

/-- `analyze` after text decoding: `extensionError` is the result of the
external `SourceType::from_extension` (`some msg` when the extension is
unrecognized), `ret` the external parser's return value.  The error path
is taken only when the parse panicked and at least one diagnostic
exists. -/
def analyze (source_text : List Char) (extensionError : Option String)
    (ret : ParseReturn) : Except String AnalysisResult :=
  match extensionError with
  | some msg => .error msg
  | none =>
    if ret.panicked then
      match ret.errors with
      | error :: _ => .error (parseErrorString error)
      | [] => .ok (buildResult source_text ret.program)
    else .ok (buildResult source_text ret.program)

/-- Whether a byte is a UTF-8 continuation byte (`0x80..=0xBF`). -/
def isContinuationByte (b : Nat) : Bool := 0x80 ≤ b && b ≤ 0xBF

/-- UTF-8 decoding as performed by `String::from_utf8` (RFC 3629:
shortest form only, no surrogates, at most U+10FFFF); `none` models the
`Err` that `analyze` unwraps. -/
def decodeUtf8 : List Nat → Option (List Char)
  | [] => some []
  | b1 :: rest =>
    if b1 < 0x80 then
      (decodeUtf8 rest).map fun cs => Char.ofNat b1 :: cs
    else if 0xC2 ≤ b1 && b1 ≤ 0xDF then
      match rest with
      | b2 :: rest2 =>
        if isContinuationByte b2 then
          (decodeUtf8 rest2).map fun cs =>
            Char.ofNat ((b1 - 0xC0) * 0x40 + (b2 - 0x80)) :: cs
        else none
      | [] => none
    else if 0xE0 ≤ b1 && b1 ≤ 0xEF then
      match rest with
      | b2 :: b3 :: rest3 =>
        let b2ok :=
          if b1 = 0xE0 then 0xA0 ≤ b2 && b2 ≤ 0xBF
          else if b1 = 0xED then 0x80 ≤ b2 && b2 ≤ 0x9F
          else isContinuationByte b2
        if b2ok && isContinuationByte b3 then
          (decodeUtf8 rest3).map fun cs =>
            Char.ofNat
              ((b1 - 0xE0) * 0x1000 + (b2 - 0x80) * 0x40 + (b3 - 0x80))
              :: cs
        else none
      | _ => none
    else if 0xF0 ≤ b1 && b1 ≤ 0xF4 then
      match rest with
      | b2 :: b3 :: b4 :: rest4 =>
        let b2ok :=
          if b1 = 0xF0 then 0x90 ≤ b2 && b2 ≤ 0xBF
          else if b1 = 0xF4 then 0x80 ≤ b2 && b2 ≤ 0x8F
          else isContinuationByte b2
        if b2ok && isContinuationByte b3 && isContinuationByte b4 then
          (decodeUtf8 rest4).map fun cs =>
            Char.ofNat
              ((b1 - 0xF0) * 0x40000 + (b2 - 0x80) * 0x1000 +
                (b3 - 0x80) * 0x40 + (b4 - 0x80)) :: cs
        else none
      | _ => none
    else none

/-- The full entry point on raw content bytes.  The first step of
`analyze` is `String::from_utf8(content).unwrap()`: when decoding fails
the unwrap panics, modelled as the outcome `none` — neither an `Ok`
result nor a structured error value is produced. -/
def analyzeBytes (content : List Nat) (extensionError : Option String)
    (ret : ParseReturn) : Option (Except String AnalysisResult) :=
  match decodeUtf8 content with
  | none => none
  | some source_text => some (analyze source_text extensionError ret)

/-! ## Concrete fixtures used by witnesses and counterexamples -/

/-- `() => <div/>`: an arrow function with an expression body that is a
markup element. -/
def arrowJsxFixture : Expression :=
  .arrowFunctionExpression true
    [.expressionStatement (.jsxElement (.mk (.identifier "div") [] ⟨24, 30⟩))]

/-- `const Button = () => <div/>;` -/
def buttonDeclFixture : Statement :=
  .variableDeclaration
    [.mk ⟨.bindingIdentifier ⟨"Button", ⟨6, 12⟩⟩, none⟩ (some arrowJsxFixture)]

/-- `__export(exports, { Button });` -/
def exportCallFixture : Statement :=
  .expressionStatement (.callExpression (.identifier "__export")
    [ .expression (.identifier "exports")
    , .expression (.objectExpression
        [.objectProperty (.staticIdentifier "Button")]) ])

/-- `export const Button = () => <div/>;` -/
def exportConstButtonFixture : Statement :=
  .exportNamedDeclaration (some (.variableDeclaration
    [.mk ⟨.bindingIdentifier ⟨"Button", ⟨20, 26⟩⟩, none⟩
      (some arrowJsxFixture)])) []

/-- A program declaring `Button` and default-exporting it, under a
`"use client"` directive. -/
def clientProgramFixture : Program :=
  { directives := ["use client"]
    body := [ buttonDeclFixture
            , .exportDefaultDeclaration (.expression (.identifier "Button")) ] }

/-- A program importing `Button` and using `<Button/>` inside `App`. -/
def importUseProgramFixture : Program :=
  { directives := []
    body :=
      [ .importDeclaration .value
          (some [.importSpecifier .value "Button"]) "./components" ⟨22, 36⟩
      , .variableDeclaration
          [.mk ⟨.bindingIdentifier ⟨"App", ⟨44, 47⟩⟩, none⟩
            (some (.arrowFunctionExpression true
              [.expressionStatement
                (.jsxElement (.mk (.identifierReference "Button") [] ⟨57, 66⟩))]))]
      , .exportDefaultDeclaration (.expression (.identifier "App")) ] }

/-- The empty program. -/
def emptyProgramFixture : Program := { directives := [], body := [] }

/-- A program whose `__export(exports, \x7b Button \x7d)` call precedes the
plain declaration of `Button`. -/
def exportCallProgramFixture : Program :=
  { directives := []
    body := [exportCallFixture, buttonDeclFixture] }

/-- A program declaring `Button` through an export-attached declaration
(`export const`) followed by the `__export` registration call. -/
def exportAttachedProgramFixture : Program :=
  { directives := []
    body := [exportConstButtonFixture, exportCallFixture] }

/-- `import X from "./c";` as a character list; the module specifier
literal (quotes included) occupies bytes 14–18, so its span is
`⟨14, 19⟩`. -/
def quoteSourceFixture : List Char :=
  ['i', 'm', 'p', 'o', 'r', 't', ' ', 'X', ' ', 'f', 'r', 'o', 'm', ' ',
   Char.ofNat 34, '.', '/', 'c', Char.ofNat 34, ';']

/-- `<Button/>` as a child fragment's only element. -/
def buttonElemFixture : JSXElement :=
  .mk (.identifierReference "Button") [] ⟨5, 14⟩

/-- `<div><><Button/></></div>`: an element whose only child is a
fragment wrapping `<Button/>`. -/
def divWithFragmentChildFixture : JSXElement :=
  .mk (.identifier "div")
    [.fragment (.mk [.element buttonElemFixture] ⟨3, 17⟩)] ⟨0, 23⟩

/-- A nest of `n + 1` elements all carrying the dotted tag
`base.property`, each wrapping the next as its only child. -/
def dotNest (base property : String) (span : Span) : Nat → JSXElement
  | 0 => .mk (.memberExpression (.identifierReference base) property) [] span
  | n + 1 =>
    .mk (.memberExpression (.identifierReference base) property)
      [.element (dotNest base property span n)] span


/-! ## Claims -/

/-- **C9.** For every content byte sequence that is not valid UTF-8, the
entry point neither returns a result nor a structured error: the decoding
step's panic branch (`String::from_utf8(content).unwrap()`) is taken, and
no analysis outcome is produced. -/
theorem claim_C9 (content : List Nat) (extensionError : Option String)
    (ret : ParseReturn) (h : decodeUtf8 content = none) :
    analyzeBytes content extensionError ret = none := by
  unfold analyzeBytes
  rw [h]

/-- Witness for C9: the single byte `0xFF` is not valid UTF-8, and at
that input `analyzeBytes` produces no outcome at all. -/
theorem claim_C9_witness :
    decodeUtf8 [0xFF] = none ∧
      analyzeBytes [0xFF] none ⟨false, [], emptyProgramFixture⟩ = none :=
  ⟨by decide, claim_C9 [0xFF] none ⟨false, [], emptyProgramFixture⟩ (by decide)⟩

/-- **C10.** When the parser signals a panicked parse but its diagnostics
list is empty, `analyze` does not take the error path: it runs the whole
analysis pipeline over the parser's program and returns an `Ok` result. -/
theorem claim_C10 (source_text : List Char) (ret : ParseReturn)
    (hpanic : ret.panicked = true) (herrors : ret.errors = []) :
    analyze source_text none ret = .ok (buildResult source_text ret.program) := by
  unfold analyze
  rw [hpanic, herrors]
  simp

/-- Witness for C10: a panicked parse with no diagnostics of the client
program yields the assembled result. -/
theorem claim_C10_witness :
    analyze [] none ⟨true, [], clientProgramFixture⟩ =
      .ok (buildResult [] clientProgramFixture) :=
  claim_C10 [] ⟨true, [], clientProgramFixture⟩ rfl rfl

/-- The `imports` field of an assembled result. -/
lemma buildResult_imports (source_text : List Char) (program : Program) :
    (buildResult source_text program).imports =
      collectImports source_text program.body := rfl

/-- The `components` field of an assembled result. -/
lemma buildResult_components (source_text : List Char) (program : Program) :
    (buildResult source_text program).components =
      ((program.body.foldl
          (exportStmtStep (jsxRuntimeIdentifiers
            (collectImports source_text program.body)))
          { exported := exportCallPass
              (firstPass (jsxRuntimeIdentifiers
                (collectImports source_text program.body)) program.body)
              program.body
            decls := firstPass (jsxRuntimeIdentifiers
              (collectImports source_text program.body)) program.body }).exported).map
        (fun p => { name := p.1
                    is_client_component := hasUseClientDirective program
                    range := span_to_range source_text p.2 }) := rfl

/-- The `jsx_usages` field of an assembled result. -/
lemma buildResult_jsx_usages (source_text : List Char) (program : Program) :
    (buildResult source_text program).jsx_usages =
      (((collect_jsx_usages program.body).filter
          (fun p => ((collectImports source_text program.body).flatMap
            (fun imp => imp.identifier)).contains p.1)).map
        (fun p => { component_name := p.1
                    range := span_to_range source_text p.2 })) := rfl

/-- Inversion of the entry point: a successful analysis is exactly the
assembled pipeline result over the parser's program. -/
lemma analyze_ok_inv (source_text : List Char)
    (extensionError : Option String) (ret : ParseReturn)
    (res : AnalysisResult)
    (h : analyze source_text extensionError ret = .ok res) :
    res = buildResult source_text ret.program := by
  cases extensionError with
  | some msg => simp [analyze] at h
  | none =>
    by_cases hp : ret.panicked = true
    · cases herr : ret.errors with
      | nil =>
        simp [analyze, hp, herr] at h
        exact h.symm
      | cons d ds => simp [analyze, hp, herr] at h
    · simp [analyze, hp] at h
      exact h.symm

/-- **C1.** For every input `analyze` accepts, the `is_client_component`
field of every entry of the returned components list equals the single
file-wide boolean saying whether the module's leading directive list
contains the exact directive `"use client"`; no per-declaration variation
is possible. -/
theorem claim_C1 (source_text : List Char) (extensionError : Option String)
    (ret : ParseReturn) (res : AnalysisResult)
    (h : analyze source_text extensionError ret = .ok res)
    (c : ComponentAnalysis) (hc : c ∈ res.components) :
    c.is_client_component =
      ret.program.directives.any (fun directive => directive == "use client") := by
  obtain rfl := analyze_ok_inv _ _ _ _ h
  rw [buildResult_components, List.mem_map] at hc
  obtain ⟨p, _, rfl⟩ := hc
  rfl

/-- Witness for C1: in the client program fixture the exported `Button`
carries the directive flag `true`, the value of the directive scan. -/
theorem claim_C1_witness :
    (ComponentAnalysis.mk "Button" true (span_to_range [] ⟨6, 12⟩)).is_client_component
      = clientProgramFixture.directives.any
          (fun directive => directive == "use client") :=
  claim_C1 [] none ⟨false, [], clientProgramFixture⟩
    (buildResult [] clientProgramFixture) rfl
    (ComponentAnalysis.mk "Button" true (span_to_range [] ⟨6, 12⟩))
    (by decide)

/-- **C2.** Every entry of the returned `jsx_usages` list has a
`component_name` occurring among the identifiers of some entry of the
returned imports list; in particular a locally declared, never imported
component never appears in `jsx_usages`. -/
theorem claim_C2 (source_text : List Char) (extensionError : Option String)
    (ret : ParseReturn) (res : AnalysisResult)
    (h : analyze source_text extensionError ret = .ok res)
    (u : JsxUsage) (hu : u ∈ res.jsx_usages) :
    ∃ imp ∈ res.imports, u.component_name ∈ imp.identifier := by
  obtain rfl := analyze_ok_inv _ _ _ _ h
  rw [buildResult_jsx_usages, List.mem_map] at hu
  obtain ⟨p, hp, rfl⟩ := hu
  rw [List.mem_filter] at hp
  have hmem : p.1 ∈ (collectImports source_text ret.program.body).flatMap
      (fun imp => imp.identifier) := by
    simpa using hp.2
  rw [List.mem_flatMap] at hmem
  obtain ⟨imp, himp, hid⟩ := hmem
  exact ⟨imp, by rw [buildResult_imports]; exact himp, hid⟩

/-- Witness for C2: in the import/use fixture, the recorded usage of
`Button` is covered by the `./components` import record. -/
theorem claim_C2_witness :
    ∃ imp ∈ (buildResult [] importUseProgramFixture).imports,
      (JsxUsage.mk "Button" (span_to_range [] ⟨57, 66⟩)).component_name
        ∈ imp.identifier :=
  claim_C2 [] none ⟨false, [], importUseProgramFixture⟩
    (buildResult [] importUseProgramFixture) rfl
    (JsxUsage.mk "Button" (span_to_range [] ⟨57, 66⟩)) (by decide)

/-- Counterexample for C5 as stated: a parse that reports one diagnostic
but did not panic does not make `analyze` return an error — it returns an
`Ok` result (`lib.rs` requires `ret.panicked` in addition to a first
diagnostic). -/
theorem claim_C5_cex :
    (ParseReturn.errors
        ⟨false, [⟨"Unexpected token", "snippet"⟩], clientProgramFixture⟩ ≠ [])
      ∧ (analyze [] none
          ⟨false, [⟨"Unexpected token", "snippet"⟩], clientProgramFixture⟩).isOk
          = true := by
  constructor
  · simp
  · rfl

/-- **C5 (amended).** For every parse whose panic flag is set and whose
diagnostics list is non-empty, `analyze` returns the error string built
from the first diagnostic (message plus rendered source snippet) and
performs no analysis; diagnostics without the panic flag do not trigger
the error path. -/
theorem claim_C5 (source_text : List Char) (ret : ParseReturn)
    (d : Diagnostic) (ds : List Diagnostic)
    (hpanic : ret.panicked = true) (herrors : ret.errors = d :: ds) :
    analyze source_text none ret = .error (parseErrorString d) := by
  unfold analyze
  rw [hpanic, herrors]
  simp

/-- Witness for C5 (amended): a panicked parse with one diagnostic turns
into the error string formed from that diagnostic. -/
theorem claim_C5_witness :
    analyze [] none
        ⟨true, [⟨"Unexpected token", "snippet"⟩], clientProgramFixture⟩ =
      .error (parseErrorString ⟨"Unexpected token", "snippet"⟩) :=
  claim_C5 [] ⟨true, [⟨"Unexpected token", "snippet"⟩], clientProgramFixture⟩
    ⟨"Unexpected token", "snippet"⟩ [] rfl rfl

/-- Counterexample for C3 as stated: `Preact.memo(() => <div/>)` — a
higher-order-component call on an object identifier other than `React`,
with a first argument that satisfies the markup checks — is *not*
classified as a component, although the name gate passes and the wrapped
function contains markup (`is_react_hoc` compares the object against the
literal `"React"`). -/
theorem claim_C3_cex :
    firstCharUppercase "Button" = true ∧
      contains_jsx [] arrowJsxFixture = true ∧
      is_react_component "Button" ⟨.bindingIdentifier ⟨"Button", ⟨6, 12⟩⟩, none⟩
        (some (.callExpression
          (.staticMemberExpression (.identifier "Preact") "memo")
          [.expression arrowJsxFixture])) [] = false := by
  refine ⟨rfl, rfl, ?_⟩
  rfl

/-- **C3 (amended).** For every PascalCase-named variable declaration
whose initializer is a call `React.forwardRef(fn)` / `React.memo(fn)`
(member form on the literal identifier `React` only — any other object
identifier is rejected) or a direct `forwardRef(fn)` / `memo(fn)` call,
where the first argument `fn` satisfies the markup / runtime-factory
checks, `is_react_component` returns `true`. -/
theorem claim_C3 (name : String) (binding : BindingPattern)
    (jsx_runtime_identifiers : List String) (callee fn : Expression)
    (rest : List Argument)
    (hname : firstCharUppercase name = true)
    (hcallee : callee = .staticMemberExpression (.identifier "React") "forwardRef"
      ∨ callee = .staticMemberExpression (.identifier "React") "memo"
      ∨ callee = .identifier "forwardRef"
      ∨ callee = .identifier "memo")
    (hfn : contains_jsx jsx_runtime_identifiers fn = true) :
    is_react_component name binding
      (some (.callExpression callee (.expression fn :: rest)))
      jsx_runtime_identifiers = true := by
  have hhoc : is_react_hoc callee = true := by
    rcases hcallee with h | h | h | h <;> subst h <;> rfl
  by_cases hb : has_react_type binding = true
  · simp [is_react_component, hname, hb]
  · simp only [is_react_component, hname, Bool.not_true, Bool.false_eq_true,
      if_false, hb, if_true]
    cases hrt : is_jsx_runtime_call jsx_runtime_identifiers
        (.callExpression callee (.expression fn :: rest)) with
    | true => simp [contains_jsx, hrt]
    | false => simp [contains_jsx, hrt, hhoc, hfn]

/-- Witness for C3 (amended): `React.memo(() => <div/>)` bound to
`Memoed` is classified as a component. -/
theorem claim_C3_witness :
    is_react_component "Memoed" ⟨.bindingIdentifier ⟨"Memoed", ⟨6, 12⟩⟩, none⟩
      (some (.callExpression
        (.staticMemberExpression (.identifier "React") "memo")
        [.expression arrowJsxFixture])) [] = true :=
  claim_C3 "Memoed" ⟨.bindingIdentifier ⟨"Memoed", ⟨6, 12⟩⟩, none⟩ []
    (.staticMemberExpression (.identifier "React") "memo") arrowJsxFixture []
    rfl (Or.inr (Or.inl rfl)) rfl

/-- Counterexample for C6 as stated: for the element whose only child is
a fragment around `<Button/>`, the collector records nothing — the
fragment occurring as a child of an element is *not* traversed (only
children that are themselves elements are visited), even though visiting
the fragment's child element would record `Button`. -/
theorem claim_C6_cex :
    collect_jsx_from_element divWithFragmentChildFixture = [] ∧
      collect_jsx_from_element buttonElemFixture = [("Button", ⟨5, 14⟩)] := by
  constructor <;> rfl

/-- **C6 (amended).** During markup-usage collection the child *elements*
of every encountered element are visited recursively whether or not the
element itself produced a usage entry (the children contribution is the
same whatever the tag); a fragment is traversed — each child element
visited, no entry for the fragment itself — only when it occurs in
expression position, while a fragment occurring as a child of an element
or of another fragment is skipped entirely. -/
theorem claim_C6 :
    (∀ (name : JSXElementName) (children : List JSXChild) (span : Span),
      collect_jsx_from_element (.mk name children span) =
        collect_jsx_from_element (.mk name [] span) ++
          collect_jsx_children children) ∧
    (∀ (children : List JSXChild) (span : Span),
      collect_jsx_from_expression (.jsxFragment (.mk children span)) =
        collect_jsx_children children) ∧
    (∀ (frag : JSXFragment) (rest : List JSXChild),
      collect_jsx_children (.fragment frag :: rest) =
        collect_jsx_children rest) := by
  refine ⟨fun name children span => ?_, fun children span => rfl,
    fun frag rest => rfl⟩
  simp [collect_jsx_from_element, collect_jsx_children]

/-- **C7.** An element whose tag is the member expression
`base.property` with uppercase-led `base` records one usage named `base`
(before its children's contributions), and a nest of `n + 1` such
elements on the same base yields exactly `n + 1` usage entries, all named
`base` — no deduplication. -/
theorem claim_C7 (base property : String) (span : Span)
    (hbase : firstCharUppercase base = true) :
    (∀ children : List JSXChild,
      collect_jsx_from_element
          (.mk (.memberExpression (.identifierReference base) property)
            children span) =
        (base, span) :: collect_jsx_children children) ∧
    (∀ n : Nat,
      collect_jsx_from_element (dotNest base property span n) =
        List.replicate (n + 1) (base, span)) := by
  have hone : ∀ children : List JSXChild,
      collect_jsx_from_element
          (.mk (.memberExpression (.identifierReference base) property)
            children span) =
        (base, span) :: collect_jsx_children children := by
    intro children
    simp [collect_jsx_from_element, hbase]
  refine ⟨hone, fun n => ?_⟩
  induction n with
  | zero => simp [dotNest, hone, collect_jsx_children]
  | succ m ih =>
    rw [dotNest, hone, collect_jsx_children, collect_jsx_children, ih]
    simp [List.replicate_succ]

/-- Witness for C7: three nested `Base.Sub` elements yield exactly three
usage entries, all named `Base`. -/
theorem claim_C7_witness :
    collect_jsx_from_element (dotNest "Base" "Sub" ⟨0, 9⟩ 2) =
      List.replicate 3 ("Base", ⟨0, 9⟩) :=
  (claim_C7 "Base" "Sub" ⟨0, 9⟩ rfl).2 2

/-- Once the byte index has reached the target offset, the position loop
stops immediately. -/
lemma offsetToPositionAux_of_ge (source : List Char) (i off line ch : Nat)
    (h : off ≤ i) :
    offsetToPositionAux source i off line ch = ⟨line, ch⟩ := by
  cases source with
  | nil => rfl
  | cons c rest => simp [offsetToPositionAux, h]

/-- Stepping the target offset one byte past a single-byte non-newline
character advances the computed position by exactly one column on the
same line. -/
lemma offsetToPositionAux_succ (source : List Char) :
    ∀ (i off line ch : Nat) (c : Char),
      charAtByteAux source i off = some c → utf8Len c = 1 → ¬ c = '\n' →
      offsetToPositionAux source i (off + 1) line ch =
        ⟨(offsetToPositionAux source i off line ch).line,
          (offsetToPositionAux source i off line ch).character + 1⟩ := by
  induction source with
  | nil =>
    intro i off line ch c hfind _ _
    simp [charAtByteAux] at hfind
  | cons c0 rest ih =>
    intro i off line ch c hfind hlen hnl
    rcases Nat.lt_trichotomy i off with hlt | heq | hgt
    · have hfind' : charAtByteAux rest (i + utf8Len c0) off = some c := by
        rw [charAtByteAux] at hfind
        rw [if_neg (by omega), if_neg (by omega)] at hfind
        exact hfind
      by_cases hnl0 : c0 = '\n'
      · rw [offsetToPositionAux, if_neg (by omega), if_pos hnl0,
          offsetToPositionAux, if_neg (by omega), if_pos hnl0]
        exact ih _ _ _ _ _ hfind' hlen hnl
      · rw [offsetToPositionAux, if_neg (by omega), if_neg hnl0,
          offsetToPositionAux, if_neg (by omega), if_neg hnl0]
        exact ih _ _ _ _ _ hfind' hlen hnl
    · subst heq
      have hc : c0 = c := by
        rw [charAtByteAux, if_pos rfl] at hfind
        exact Option.some.inj hfind
      subst hc
      rw [offsetToPositionAux, if_neg (by omega), if_neg hnl, hlen,
        offsetToPositionAux_of_ge rest (i + 1) (i + 1) line (ch + 1) (by omega),
        offsetToPositionAux, if_pos (by omega)]
    · rw [charAtByteAux, if_neg (by omega), if_pos hgt] at hfind
      exact absurd hfind (by simp)

/-- Every quote delimiter character occupies one byte and is not a
newline. -/
lemma isQuoteChar_utf8Len {c : Char} (h : isQuoteChar c) :
    utf8Len c = 1 ∧ ¬ c = '\n' := by
  rcases h with h | h | h <;> subst h <;> exact ⟨rfl, by decide⟩

/-- **C8.** For every source text and every span delimited by one quote
byte on each side (a quote character starts at byte `span.start`, a quote
character occupies byte `span.stop - 1`, and the two quotes are
distinct), the range returned by `string_literal_to_range` starts
strictly after the start position that `span_to_range` gives the raw
span, and ends strictly before the raw span's end position. -/
theorem claim_C8 (source : List Char) (span : Span) (c1 c2 : Char)
    (h1 : charAtByte source span.start = some c1) (hq1 : isQuoteChar c1)
    (h2 : charAtByte source (span.stop - 1) = some c2) (hq2 : isQuoteChar c2)
    (hwf : span.start + 2 ≤ span.stop) :
    posLt (span_to_range source span).start
      (string_literal_to_range source span).start ∧
    posLt (string_literal_to_range source span).stop
      (span_to_range source span).stop := by
  obtain ⟨hl1, hn1⟩ := isQuoteChar_utf8Len hq1
  obtain ⟨hl2, hn2⟩ := isQuoteChar_utf8Len hq2
  constructor
  · have h := offsetToPositionAux_succ source 0 span.start 0 0 c1 h1 hl1 hn1
    simp only [span_to_range, string_literal_to_range, offset_to_position]
    rw [h]
    exact Or.inr ⟨rfl, Nat.lt_succ_self _⟩
  · have h := offsetToPositionAux_succ source 0 (span.stop - 1) 0 0 c2 h2 hl2 hn2
    have hs : span.stop - 1 + 1 = span.stop := by omega
    rw [hs] at h
    simp only [span_to_range, string_literal_to_range, offset_to_position]
    rw [h]
    exact Or.inr ⟨rfl, Nat.lt_succ_self _⟩

/-- Witness for C8: for `import X from "./c";` and the specifier span
`⟨14, 19⟩` (quotes at bytes 14 and 18), the interior range is strictly
inside the raw range on both sides. -/
theorem claim_C8_witness :
    posLt (span_to_range quoteSourceFixture ⟨14, 19⟩).start
      (string_literal_to_range quoteSourceFixture ⟨14, 19⟩).start ∧
    posLt (string_literal_to_range quoteSourceFixture ⟨14, 19⟩).stop
      (span_to_range quoteSourceFixture ⟨14, 19⟩).stop :=
  claim_C8 quoteSourceFixture ⟨14, 19⟩ (Char.ofNat 34) (Char.ofNat 34)
    (by decide) (Or.inl rfl) (by decide) (Or.inl rfl) (by decide)


/-- Folding a step that only appends to the exported list over a list
only appends to the exported list. -/
lemma foldl_exported_append {α : Type} (f : ExportState → α → ExportState)
    (hf : ∀ st a, ∃ tail, (f st a).exported = st.exported ++ tail) :
    ∀ (l : List α) (st : ExportState),
      ∃ tail, (l.foldl f st).exported = st.exported ++ tail := by
  intro l
  induction l with
  | nil => exact fun st => ⟨[], by simp⟩
  | cons a rest ih =>
    intro st
    obtain ⟨t1, h1⟩ := hf st a
    obtain ⟨t2, h2⟩ := ih (f st a)
    exact ⟨t1 ++ t2, by rw [List.foldl_cons, h2, h1, List.append_assoc]⟩

lemma exportVarDeclaratorStep_exported (ids : List String)
    (st : ExportState) (dcl : Declarator) :
    ∃ tail, (exportVarDeclaratorStep ids st dcl).exported
      = st.exported ++ tail := by
  obtain ⟨⟨kind, tyAnn⟩, init⟩ := dcl
  cases kind with
  | bindingIdentifier ident =>
    by_cases hc : is_react_component ident.name ⟨.bindingIdentifier ident, tyAnn⟩ init ids = true
    · exact ⟨[(ident.name, ident.span)],
        by simp [exportVarDeclaratorStep, hc, register_component]⟩
    · exact ⟨[], by simp [exportVarDeclaratorStep, hc]⟩
  | otherPattern => exact ⟨[], by simp [exportVarDeclaratorStep]⟩

lemma exportSpecifierStep_exported (st : ExportState)
    (sp : ModuleExportName) :
    ∃ tail, (exportSpecifierStep st sp).exported = st.exported ++ tail := by
  cases sp with
  | identifierName n =>
    cases h : declMapGet st.decls n with
    | some span =>
      exact ⟨[(n, span)], by simp [exportSpecifierStep, h, pushExport]⟩
    | none => exact ⟨[], by simp [exportSpecifierStep, h]⟩
  | identifierReference n =>
    cases h : declMapGet st.decls n with
    | some span =>
      exact ⟨[(n, span)], by simp [exportSpecifierStep, h, pushExport]⟩
    | none => exact ⟨[], by simp [exportSpecifierStep, h]⟩
  | stringLiteral n =>
    cases h : declMapGet st.decls n with
    | some span =>
      exact ⟨[(n, span)], by simp [exportSpecifierStep, h, pushExport]⟩
    | none => exact ⟨[], by simp [exportSpecifierStep, h]⟩

lemma exportStmtStep_exported (ids : List String) (st : ExportState)
    (s : Statement) :
    ∃ tail, (exportStmtStep ids st s).exported = st.exported ++ tail := by
  cases s with
  | exportDefaultDeclaration d =>
    cases d with
    | expression e =>
      cases e with
      | identifier name =>
        cases h : declMapGet st.decls name with
        | some span =>
          exact ⟨[(name, span)], by simp [exportStmtStep, h, pushExport]⟩
        | none => exact ⟨[], by simp [exportStmtStep, h]⟩
      | jsxElement el => exact ⟨[], by simp [exportStmtStep]⟩
      | jsxFragment f => exact ⟨[], by simp [exportStmtStep]⟩
      | callExpression c a => exact ⟨[], by simp [exportStmtStep]⟩
      | staticMemberExpression o p => exact ⟨[], by simp [exportStmtStep]⟩
      | computedMemberExpression o k => exact ⟨[], by simp [exportStmtStep]⟩
      | sequenceExpression es => exact ⟨[], by simp [exportStmtStep]⟩
      | parenthesizedExpression e2 => exact ⟨[], by simp [exportStmtStep]⟩
      | arrowFunctionExpression b bd => exact ⟨[], by simp [exportStmtStep]⟩
      | functionExpression bd => exact ⟨[], by simp [exportStmtStep]⟩
      | objectExpression ps => exact ⟨[], by simp [exportStmtStep]⟩
      | stringLiteralExpr v => exact ⟨[], by simp [exportStmtStep]⟩
      | otherExpression => exact ⟨[], by simp [exportStmtStep]⟩
    | functionDeclaration fn =>
      cases h : analyze_function_declaration fn ids with
      | some p =>
        exact ⟨[p], by simp [exportStmtStep, h, register_component]⟩
      | none => exact ⟨[], by simp [exportStmtStep, h]⟩
    | otherKind => exact ⟨[], by simp [exportStmtStep]⟩
  | exportNamedDeclaration decl specs =>
    cases decl with
    | some d =>
      cases d with
      | variableDeclaration decls =>
        simpa [exportStmtStep] using foldl_exported_append _
          (exportVarDeclaratorStep_exported ids) decls st
      | functionDeclaration fn =>
        cases h : analyze_function_declaration fn ids with
        | some p => exact ⟨[p], by simp [exportStmtStep, h, register_component]⟩
        | none => exact ⟨[], by simp [exportStmtStep, h]⟩
      | otherDeclaration => exact ⟨[], by simp [exportStmtStep]⟩
    | none =>
      simpa [exportStmtStep] using
        foldl_exported_append _ exportSpecifierStep_exported specs st
  | importDeclaration k sp v s2 => exact ⟨[], by simp [exportStmtStep]⟩
  | variableDeclaration d => exact ⟨[], by simp [exportStmtStep]⟩
  | functionDeclarationStmt f => exact ⟨[], by simp [exportStmtStep]⟩
  | expressionStatement e => exact ⟨[], by simp [exportStmtStep]⟩
  | returnStatement a => exact ⟨[], by simp [exportStmtStep]⟩
  | blockStatement b => exact ⟨[], by simp [exportStmtStep]⟩
  | ifStatement c a => exact ⟨[], by simp [exportStmtStep]⟩
  | otherStatement => exact ⟨[], by simp [exportStmtStep]⟩

lemma foldl_exportStmtStep_exported (ids : List String)
    (body : List Statement) (st : ExportState) :
    ∃ tail, (body.foldl (exportStmtStep ids) st).exported
      = st.exported ++ tail :=
  foldl_exported_append _ (exportStmtStep_exported ids) body st


/-- Counterexample for C4 as stated: in a program whose `Button`
component is introduced by an export-attached declaration
(`export const Button = () => <div/>;`) followed by
`__export(exports, \x7b Button \x7d)`, the registration scan contributes
nothing — it runs before the export-statement pass, which is the only
pass that registers export-attached declarations — so the final output
carries a single `Button` entry (from the export-statement pass) and the
`__export` key is not added, although `Button` is classified as a
component. -/
theorem claim_C4_cex :
    is_react_component "Button" ⟨.bindingIdentifier ⟨"Button", ⟨20, 26⟩⟩, none⟩
        (some arrowJsxFixture) [] = true ∧
    exportCallPass
        (firstPass
          (jsxRuntimeIdentifiers
            (collectImports [] exportAttachedProgramFixture.body))
          exportAttachedProgramFixture.body)
        exportAttachedProgramFixture.body = [] ∧
    (buildResult [] exportAttachedProgramFixture).components.map
        (fun c => c.name) = ["Button"] := by
  exact ⟨rfl, rfl, rfl⟩

/-- **C4 (amended).** For every program containing a call to the
registration function `__export` whose second argument is an object
literal, each property key naming a declaration that the
plain-declaration classification pass recorded as a component is added to
the exported component list, regardless of the relative order, within the
file, of the registration call and the plain declaration; components
introduced only by export-attached declarations (`export const` /
`export function`) are registered after the `__export` scan has already
run and are therefore not visible to it. -/
theorem claim_C4 (source_text : List Char) (program : Program)
    (name : String) (span : Span) (pre post : List Statement)
    (arg0 : Argument) (restArgs : List Argument)
    (props : List ObjectPropertyKind)
    (hbody : program.body = pre ++
      Statement.expressionStatement (.callExpression (.identifier "__export")
        (arg0 :: .expression (.objectExpression props) :: restArgs)) :: post)
    (hdecl : declMapGet
      (firstPass (jsxRuntimeIdentifiers (collectImports source_text program.body))
        program.body) name = some span)
    (hkey : ObjectPropertyKind.objectProperty (.staticIdentifier name) ∈ props) :
    ComponentAnalysis.mk name (hasUseClientDirective program)
        (span_to_range source_text span)
      ∈ (buildResult source_text program).components := by
  have hstmt : Statement.expressionStatement (.callExpression (.identifier "__export")
      (arg0 :: .expression (.objectExpression props) :: restArgs)) ∈ program.body := by
    rw [hbody]
    exact List.mem_append_right _ (List.mem_cons_self _ _)
  have hcontrib : (name, span) ∈ exportCallContribution
      (firstPass (jsxRuntimeIdentifiers (collectImports source_text program.body))
        program.body)
      (Statement.expressionStatement (.callExpression (.identifier "__export")
        (arg0 :: .expression (.objectExpression props) :: restArgs))) := by
    simp only [exportCallContribution]
    rw [if_pos (by simp)]
    simp only [List.get?_cons_succ, List.get?_cons_zero]
    rw [List.mem_filterMap]
    exact ⟨_, hkey, by simp [hdecl]⟩
  have hpass : (name, span) ∈ exportCallPass
      (firstPass (jsxRuntimeIdentifiers (collectImports source_text program.body))
        program.body) program.body :=
    List.mem_flatMap.mpr ⟨_, hstmt, hcontrib⟩
  obtain ⟨tail, htail⟩ := foldl_exportStmtStep_exported
    (jsxRuntimeIdentifiers (collectImports source_text program.body))
    program.body
    { exported := exportCallPass
        (firstPass (jsxRuntimeIdentifiers (collectImports source_text program.body))
          program.body) program.body
      decls := firstPass
        (jsxRuntimeIdentifiers (collectImports source_text program.body))
        program.body }
  rw [buildResult_components, List.mem_map]
  refine ⟨(name, span), ?_, rfl⟩
  rw [htail]
  exact List.mem_append_left _ hpass

/-- Witness for C4 (amended): with the `__export(exports, \x7b Button \x7d)`
call placed *before* the plain declaration of `Button`, the key is still
exported. -/
theorem claim_C4_witness :
    ComponentAnalysis.mk "Button" (hasUseClientDirective exportCallProgramFixture)
        (span_to_range [] ⟨6, 12⟩)
      ∈ (buildResult [] exportCallProgramFixture).components :=
  claim_C4 [] exportCallProgramFixture "Button" ⟨6, 12⟩ [] [buttonDeclFixture]
    (.expression (.identifier "exports")) []
    [.objectProperty (.staticIdentifier "Button")]
    rfl (by decide) (by decide)

end ReactBoundary
